import Mathlib

/-!
Verification development for the file-organizer repository.

The UI sources are embedded shallowly: each JavaScript helper that a claim
refers to is translated into an executable Lean definition operating on
`String`, `List`, `Option` and explicit state values.  JavaScript string
primitives (`split` on a one-character separator, `join`, `parseInt`,
`padStart`, default `Array.prototype.sort`) are modelled by the `js*`
functions below; machine details that cannot matter on the inputs involved
(UTF-16 code units versus Unicode code points — all strings here are ASCII)
are noted where they arise.
-/

namespace FileOrganizer

/-- Splits a list of characters at every occurrence of `sep`, keeping empty
segments, exactly like JavaScript `String.prototype.split` with a
one-character separator.  The result is always non-empty. -/
def splitOnChar (sep : Char) : List Char → List (List Char)
  | [] => [[]]
  | c :: cs =>
    match splitOnChar sep cs with
    | [] => [[]]
    | h :: t => if c = sep then [] :: h :: t else (c :: h) :: t

/-- JavaScript `s.split(sep)` for a one-character separator `sep`. -/
def jsSplit (sep : Char) (s : String) : List String :=
  (splitOnChar sep s.data).map (fun cs => String.mk cs)

/-- Concatenates character lists, placing `sep` between consecutive
elements, like JavaScript `Array.prototype.join` with a one-character
separator. -/
def joinWithChar (sep : Char) : List (List Char) → List Char
  | [] => []
  | [l] => l
  | l :: ls => l ++ sep :: joinWithChar sep ls

/-- JavaScript `arr.join(sep)` for a one-character separator. -/
def jsJoin (sep : Char) (ls : List String) : String :=
  String.mk (joinWithChar sep (ls.map String.data))

/-- Decimal value of a list of digit characters. -/
def digitsToNat (ds : List Char) : Nat :=
  ds.foldl (fun a c => a * 10 + (c.toNat - 48)) 0

/-- JavaScript `parseInt` restricted to the non-negative case: reads the
maximal leading run of decimal digits; `none` models `NaN` (no leading
digit).  The sources only ever apply `parseInt` to the components of an
`HH:MM` time value, which carry no sign, whitespace or radix prefix. -/
def jsParseInt (s : String) : Option Nat :=
  let ds := s.data.takeWhile Char.isDigit
  if ds = [] then none else some (digitsToNat ds)

/-- Rendering of a `parseInt` result inside a template literal: a number
prints in decimal, `NaN` prints as the string `NaN`. -/
def jsNumStr : Option Nat → String
  | none => "NaN"
  | some n => Nat.repr n

/-- JavaScript `s.padStart(2, c)`. -/
def jsPadStart2 (s : String) (c : Char) : String :=
  if s.length ≥ 2 then s else String.mk (List.replicate (2 - s.length) c ++ s.data)

/-- JavaScript default `Array.prototype.sort` on an array of strings:
sorts ascending by lexicographic comparison of the strings (for the ASCII
strings appearing here, UTF-16 code-unit order and the Lean `String` order
agree).  Modelled by insertion sort, which is a stable comparison sort as
ES2019 requires. -/
def jsSortStrs (l : List String) : List String :=
  List.insertionSort (fun a b => a ≤ b) l

/-- JavaScript `x || y` for a possibly-absent string `x`: the empty string
and `undefined`/`null` are falsy and select the fallback `y`. -/
def jsOrStr (o : Option String) (dflt : String) : String :=
  match o with
  | some s => if s = "" then dflt else s
  | none => dflt

/-! ### Schedule editor cron helpers (ScheduleEditor component) -/

/-- The weekday checkboxes of the schedule editor: label and cron weekday
value, `0` denoting Sunday (cron standard). -/
def daysOfWeek : List (String × String) :=
  [("Mon", "1"), ("Tue", "2"), ("Wed", "3"), ("Thu", "4"),
   ("Fri", "5"), ("Sat", "6"), ("Sun", "0")]

/-- The cron weekday values offered by the editor. -/
def weekdayValues : List String := daysOfWeek.map Prod.snd

/-- Editor state produced by `parseCron`: a time string, the selected
weekday values and the enabled flag. -/
structure EditorState where
  time : String
  days : List String
  enabled : Bool
deriving DecidableEq, Repr

/-- `parseCron` from the schedule editor: a null/absent or empty cron
string, or one that does not split into exactly five space-separated
fields, yields the disabled default state; otherwise fields 0, 1 and 4 are
read back as minute, hour and comma-separated weekday list. -/
def parseCron (cronString : Option String) : EditorState :=
  match cronString with
  | none => { time := "22:00", days := [], enabled := false }
  | some s =>
    if s = "" ∨ (jsSplit ' ' s).length ≠ 5 then
      { time := "22:00", days := [], enabled := false }
    else
      let parts := jsSplit ' ' s
      let minute := jsPadStart2 (parts.getD 0 "") '0'
      let hour := jsPadStart2 (parts.getD 1 "") '0'
      let days := jsSplit ',' (parts.getD 4 "")
      { time := hour ++ ":" ++ minute, days := days, enabled := true }

/-- `buildCron` from the schedule editor: `null` when disabled or no
weekday is selected, otherwise the five-field cron string
`minute hour * * day,day,...` with the day list sorted by the default
array sort. -/
def buildCron (time : String) (days : List String) (enabled : Bool) : Option String :=
  if enabled = false ∨ days = [] then none
  else
    let parts := jsSplit ':' time
    let hour := parts.getD 0 ""
    let minute := parts.getD 1 ""
    some (jsNumStr (jsParseInt minute) ++ " " ++ jsNumStr (jsParseInt hour) ++ " * * " ++
      jsJoin ',' (jsSortStrs days))

/-- Two-digit zero-padded decimal rendering of an hour or minute value,
the form the `<input type="time">` field delivers. -/
def pad2 (n : Nat) : String := jsPadStart2 (Nat.repr n) '0'

/-! ### Live run-log stream client (RunLogModal component) -/

/-- Sentinel literal marking the end of a run-log stream. -/
def STREAM_END : String := "[STREAM_END]"

/-- Client-side state of the run-log modal: displayed log lines, the
completion flag, and whether the `EventSource` has been closed. -/
structure RunLogState where
  logs : List String
  isComplete : Bool
  closed : Bool
deriving DecidableEq, Repr

/-- State of the modal when the stream is opened. -/
def initialRunLogState : RunLogState := { logs := [], isComplete := false, closed := false }

/-- The `onmessage` handler of `RunLogModal`: the sentinel marks the run
complete and closes the stream, any other message is appended to the
displayed log. -/
def onStreamMessage (st : RunLogState) (data : String) : RunLogState :=
  if data = STREAM_END then { st with isComplete := true, closed := true }
  else { st with logs := st.logs ++ [data] }

/-- Delivery loop of the event stream: messages are handed to
`onStreamMessage` in arrival order; once the client has closed the
`EventSource`, no further message is delivered. -/
def deliverMessages (st : RunLogState) : List String → RunLogState
  | [] => st
  | d :: ds => if st.closed then st else deliverMessages (onStreamMessage st d) ds

/-- Final modal state after a given sequence of stream messages. -/
def runStream (msgs : List String) : RunLogState := deliverMessages initialRunLogState msgs

/-! ### Starting a run from the disk view (handleRun) -/

/-- Parsed JSON payload of a `POST /api/run` response as the client reads
it: an optional `run_id` and an optional `error` message. -/
structure RunResponse where
  run_id : Option Nat
  error : Option String
deriving DecidableEq, Repr

/-- Observable outcome of the run request in the disk view: either the live
run-log modal is opened for a run id, or an error snackbar is shown. -/
inductive RunUiOutcome where
  | openLogView (runId : Nat)
  | showError (message : String)
deriving DecidableEq, Repr

/-- JavaScript truthiness of a possibly-absent number (`0`, `null` and
`undefined` are falsy). -/
def jsTruthyNum : Option Nat → Bool
  | some n => n != 0
  | none => false

/-- The resolved branch of `handleRun` in the disk view: open the run-log
modal when `data.run_id` is truthy, otherwise show `data.error` (or a
default message) in an error snackbar. -/
def handleRun (data : RunResponse) : RunUiOutcome :=
  if jsTruthyNum data.run_id then RunUiOutcome.openLogView (data.run_id.getD 0)
  else RunUiOutcome.showError (jsOrStr data.error "Failed to start run.")

/-- `handleRun` including the rejected-promise path: when the shared API
client threw (non-ok HTTP response), the catch handler shows an error
snackbar; otherwise the resolved payload is dispatched as above. -/
def handleRunFlow (result : Except String RunResponse) : RunUiOutcome :=
  match result with
  | Except.error e => RunUiOutcome.showError ("Request failed: " ++ e)
  | Except.ok data => handleRun data

/-- Modelled from the spec: the backend handler of `POST /api/run` is not
among the sources, so the shape of its response is taken from §6 of the
spec — either a `{run_id}` payload (run ids are assigned from a
monotonically increasing counter, taken here to start at 1) or an
`{error}` payload. -/
def SpecRunResponse (r : RunResponse) : Prop :=
  (∃ id, 0 < id ∧ r.run_id = some id ∧ r.error = none) ∨
  (r.run_id = none ∧ ∃ msg, r.error = some msg)

/-! ### Empty-directory cleanup dialog (handleOpenCleanup / handleConfirmCleanup) -/

/-- Parsed `{deleted, errors}` payload of `POST /api/cleanup-empty-dirs`;
`errors` is optional as the client guards against its absence. -/
structure CleanupResponse where
  deleted : Nat
  errors : Option (List String)
deriving DecidableEq, Repr

/-- A snackbar notification: message text and severity string. -/
structure Snackbar where
  message : String
  severity : String
deriving DecidableEq, Repr

/-- `handleOpenCleanup`: the list returned by
`GET /api/disks/:name/empty-dirs` is stored unchanged in the `emptyDirs`
state. -/
def handleOpenCleanup (scanResult : List String) : List String := scanResult

/-- The API client `cleanupEmptyDirs`: the request body of
`POST /api/cleanup-empty-dirs` is `{paths}` with exactly the list it was
given. -/
def cleanupRequestPaths (paths : List String) : List String := paths

/-- `handleConfirmCleanup`: sends the stored `emptyDirs` list as the
request body and reports the `{deleted, errors}` outcome — a warning
snackbar when `errors` is a non-empty list, a success snackbar
otherwise. -/
def handleConfirmCleanup (emptyDirs : List String) (resp : CleanupResponse) :
    List String × Snackbar :=
  (cleanupRequestPaths emptyDirs,
   match resp.errors with
   | some es =>
     if 0 < es.length then
       { message := "Cleanup finished with " ++ Nat.repr es.length ++ " errors.",
         severity := "warning" }
     else
       { message := "Successfully deleted " ++ Nat.repr resp.deleted ++ " empty directories.",
         severity := "success" }
   | none =>
     { message := "Successfully deleted " ++ Nat.repr resp.deleted ++ " empty directories.",
       severity := "success" })

/-! ### Shared API response handler (handleResponse) -/

/-- A JSON response body as far as `handleResponse` inspects it: only the
optional structured `error` field matters. -/
structure ErrorPayload where
  error : Option String
deriving DecidableEq, Repr

/-- An HTTP response as seen by the API client: the `ok` flag and the
body, `none` standing for a body that is not valid JSON. -/
structure ApiResponse where
  ok : Bool
  jsonBody : Option ErrorPayload
deriving DecidableEq, Repr

/-- `handleResponse` from the centralized API client: a non-ok response
throws an error carrying the structured `error` message, falling back to
a fixed message when the body is not JSON and to a generic one when the
`error` field is missing or empty; an ok response resolves to its parsed
JSON body (a non-JSON body makes `response.json()` itself reject). -/
def handleResponse (response : ApiResponse) : Except String ErrorPayload :=
  if response.ok = false then
    let errorData := response.jsonBody.getD { error := some "An unknown network error occurred" }
    Except.error (jsOrStr errorData.error "Request failed")
  else
    match response.jsonBody with
    | some body => Except.ok body
    | none => Except.error "Unexpected non-JSON response body"

/-! ### File-browser sorting (loadFiles / fetchFiles) -/

/-- An entry of a `GET /api/files` listing as the sorts inspect it. -/
structure FileEntry where
  name : String
  is_dir : Bool
deriving DecidableEq, Repr

/-- JavaScript coercion of a boolean to a number. -/
def boolToInt (b : Bool) : Int := if b then 1 else 0

/-- The comparator of `loadFiles` in the embedded file browser:
`(b.is_dir - a.is_dir) || a.name.localeCompare(b.name)`, parametrized by
the locale comparison `lc`. -/
def fileCmpA (lc : String → String → Int) (a b : FileEntry) : Int :=
  let d : Int := boolToInt b.is_dir - boolToInt a.is_dir
  if d ≠ 0 then d else lc a.name b.name

/-- The comparator of `fetchFiles` in `FileBrowserPage`: directories
first via explicit `-1`/`1`, then `localeCompare` on names. -/
def fileCmpB (lc : String → String → Int) (a b : FileEntry) : Int :=
  if a.is_dir && !b.is_dir then -1
  else if !a.is_dir && b.is_dir then 1
  else lc a.name b.name

/-- JavaScript `Array.prototype.sort` with a comparator, modelled as a
stable comparison sort placing `a` before `b` whenever `cmp a b ≤ 0`. -/
def jsSortFiles (cmp : FileEntry → FileEntry → Int) (l : List FileEntry) : List FileEntry :=
  List.insertionSort (fun a b => cmp a b ≤ 0) l

/-- A concrete locale comparison (code-point order), used to witness the
comparator hypotheses. -/
def lcStd (a b : String) : Int := if a < b then -1 else if b < a then 1 else 0

/-! ### Run orchestrator slot (modelled from the spec) -/

/-- Status of a Run record. -/
inductive RunStatus where
  | running
  | success
  | error
deriving DecidableEq, Repr

/-- A persisted Run record (the fields the slot claim concerns). -/
structure RunRecord where
  id : Nat
  disk_name : String
  status : RunStatus
deriving DecidableEq, Repr

/-- Modelled from the spec: backend state relevant to the Global Run Slot
(§3) — the single-occupancy slot holding the id of at most one active run, the
persisted Run records, and the next run id of the monotonically
increasing counter. -/
structure OrchestratorState where
  slot : Option Nat
  runs : List RunRecord
  nextId : Nat
deriving DecidableEq, Repr

/-- Result of a run-start request: a fresh run id, or a ConflictError. -/
inductive StartRunResult where
  | started (runId : Nat)
  | conflict (message : String)
deriving DecidableEq, Repr

/-- Modelled from the spec: the `start(disk)` transition of the Run Orchestrator
(§4.2, §5) is not among the sources.  Acquisition of the slot
is a single atomic, non-blocking step: a request while the slot is
occupied immediately returns a ConflictError and changes nothing, a
request while it is empty creates a new Run record in `running` status
and occupies the slot with its id. -/
def startRun (st : OrchestratorState) (disk : String) : OrchestratorState × StartRunResult :=
  match st.slot with
  | some _ => (st, StartRunResult.conflict "a run is already active")
  | none =>
    ({ slot := some st.nextId,
       runs := st.runs ++ [{ id := st.nextId, disk_name := disk, status := RunStatus.running }],
       nextId := st.nextId + 1 },
     StartRunResult.started st.nextId)

/-! ### Lemmas about the string primitives -/

theorem splitOnChar_ne_nil (sep : Char) (l : List Char) : splitOnChar sep l ≠ [] := by
  cases l with
  | nil => simp [splitOnChar]
  | cons c cs =>
    simp only [splitOnChar]
    cases splitOnChar sep cs with
    | nil => simp
    | cons a t => by_cases hc : c = sep <;> simp [hc]

theorem splitOnChar_of_not_mem {sep : Char} {l : List Char} (h : sep ∉ l) :
    splitOnChar sep l = [l] := by
  induction l with
  | nil => rfl
  | cons c cs ih =>
    have hc : c ≠ sep := fun hc => h (hc ▸ List.mem_cons_self c cs)
    have hcs : sep ∉ cs := fun hm => h (List.mem_cons_of_mem c hm)
    simp only [splitOnChar, ih hcs]
    simp [hc]

theorem splitOnChar_append {sep : Char} {l₁ : List Char} (l₂ : List Char)
    (h : sep ∉ l₁) : splitOnChar sep (l₁ ++ sep :: l₂) = l₁ :: splitOnChar sep l₂ := by
  induction l₁ with
  | nil =>
    simp only [List.nil_append, splitOnChar]
    rcases hs : splitOnChar sep l₂ with _ | ⟨a, t⟩
    · exact absurd hs (splitOnChar_ne_nil sep l₂)
    · simp
  | cons c cs ih =>
    have hc : c ≠ sep := fun hc => h (hc ▸ List.mem_cons_self c cs)
    have hcs : sep ∉ cs := fun hm => h (List.mem_cons_of_mem c hm)
    simp only [List.cons_append, splitOnChar, List.append_eq]
    rw [ih hcs]
    simp [hc]

theorem mem_joinWithChar {sep c : Char} {ls : List (List Char)}
    (h : c ∈ joinWithChar sep ls) : c = sep ∨ ∃ l ∈ ls, c ∈ l := by
  induction ls with
  | nil => simp [joinWithChar] at h
  | cons x xs ih =>
    cases xs with
    | nil =>
      simp only [joinWithChar] at h
      exact Or.inr ⟨x, List.mem_cons_self x [], h⟩
    | cons y ys =>
      simp only [joinWithChar, List.mem_append, List.mem_cons] at h
      rcases h with hx | hc | hrest
      · exact Or.inr ⟨x, List.mem_cons_self x _, hx⟩
      · exact Or.inl hc
      · rcases ih hrest with hsep | ⟨l, hl, hcl⟩
        · exact Or.inl hsep
        · exact Or.inr ⟨l, List.mem_cons_of_mem x hl, hcl⟩

theorem splitOnChar_joinWithChar {sep : Char} {ls : List (List Char)}
    (hne : ls ≠ []) (h : ∀ l ∈ ls, sep ∉ l) :
    splitOnChar sep (joinWithChar sep ls) = ls := by
  induction ls with
  | nil => exact absurd rfl hne
  | cons x xs ih =>
    cases xs with
    | nil => simpa [joinWithChar] using splitOnChar_of_not_mem (h x (List.mem_cons_self x []))
    | cons y ys =>
      have hx : sep ∉ x := h x (List.mem_cons_self x _)
      have hrest : ∀ l ∈ y :: ys, sep ∉ l := fun l hl => h l (List.mem_cons_of_mem x hl)
      have : joinWithChar sep (x :: y :: ys) = x ++ sep :: joinWithChar sep (y :: ys) := rfl
      rw [this, splitOnChar_append _ hx, ih (by simp) hrest]

theorem string_data_append (a b : String) : (a ++ b).data = a.data ++ b.data := by
  cases a; cases b; rfl

theorem string_mk_data (s : String) : String.mk s.data = s := by
  cases s; rfl

theorem string_ne_empty_of_data_ne_nil {s : String} (h : s.data ≠ []) : s ≠ "" := by
  intro hs
  exact h (by simp [hs])

theorem pad2_no_colon {n : Nat} (h : n < 60) : ':' ∉ (pad2 n).data := by
  have hall : ∀ k : Fin 60, ':' ∉ (pad2 k.val).data := by decide
  exact hall ⟨n, h⟩

theorem jsParseInt_pad2 {n : Nat} (h : n < 60) : jsParseInt (pad2 n) = some n := by
  have hall : ∀ k : Fin 60, jsParseInt (pad2 k.val) = some k.val := by decide
  exact hall ⟨n, h⟩

theorem repr_no_space {n : Nat} (h : n < 60) : ' ' ∉ (Nat.repr n).data := by
  have hall : ∀ k : Fin 60, ' ' ∉ (Nat.repr k.val).data := by decide
  exact hall ⟨n, h⟩

theorem repr_data_ne_nil {n : Nat} (h : n < 60) : (Nat.repr n).data ≠ [] := by
  have hall : ∀ k : Fin 60, (Nat.repr k.val).data ≠ [] := by decide
  exact hall ⟨n, h⟩

theorem weekday_no_space {d : String} (hd : d ∈ weekdayValues) : ' ' ∉ d.data := by
  have hall : ∀ x ∈ weekdayValues, ' ' ∉ x.data := by decide
  exact hall d hd

theorem weekday_no_comma {d : String} (hd : d ∈ weekdayValues) : ',' ∉ d.data := by
  have hall : ∀ x ∈ weekdayValues, ',' ∉ x.data := by decide
  exact hall d hd

theorem weekday_digit {d : String} (hd : d ∈ weekdayValues) :
    d ∈ ["0", "1", "2", "3", "4", "5", "6"] := by
  have hall : ∀ x ∈ weekdayValues, x ∈ ["0", "1", "2", "3", "4", "5", "6"] := by decide
  exact hall d hd

theorem jsJoin_not_mem {sep c : Char} {ls : List String} (hc : c ≠ sep)
    (h : ∀ l ∈ ls, c ∉ l.data) : c ∉ (jsJoin sep ls).data := by
  intro hmem
  rcases mem_joinWithChar hmem with h1 | ⟨l, hl, hcl⟩
  · exact hc h1
  · obtain ⟨s, hs, rfl⟩ := List.mem_map.mp hl
    exact h s hs hcl

theorem jsSplit_jsJoin {sep : Char} {ls : List String} (hne : ls ≠ [])
    (h : ∀ l ∈ ls, sep ∉ l.data) : jsSplit sep (jsJoin sep ls) = ls := by
  unfold jsSplit jsJoin
  rw [show (String.mk (joinWithChar sep (ls.map String.data))).data =
        joinWithChar sep (ls.map String.data) from rfl]
  rw [splitOnChar_joinWithChar (by simpa using hne)
    (by intro l hl; obtain ⟨s, hs, rfl⟩ := List.mem_map.mp hl; exact h s hs)]
  rw [List.map_map]
  have hid : (fun cs => String.mk cs) ∘ String.data = id := by
    funext s
    exact string_mk_data s
  rw [hid, List.map_id]

theorem jsSortStrs_perm (l : List String) : (jsSortStrs l).Perm l :=
  List.perm_insertionSort _ l

theorem jsSortStrs_sorted (l : List String) : (jsSortStrs l).Sorted (· ≤ ·) :=
  List.sorted_insertionSort _ l

theorem buildCron_eq {h m : Nat} (hh : h < 24) (hm : m < 60) (days : List String)
    (hne : days ≠ []) :
    buildCron (pad2 h ++ ":" ++ pad2 m) days true =
      some (Nat.repr m ++ " " ++ Nat.repr h ++ " * * " ++ jsJoin ',' (jsSortStrs days)) := by
  have h60 : h < 60 := lt_trans hh (by norm_num)
  have hdata : (pad2 h ++ ":" ++ pad2 m).data = (pad2 h).data ++ ':' :: (pad2 m).data := by
    rw [string_data_append, string_data_append]
    rw [show (":" : String).data = [':'] from rfl, List.append_assoc]
    rfl
  have hsplit : jsSplit ':' (pad2 h ++ ":" ++ pad2 m) = [pad2 h, pad2 m] := by
    unfold jsSplit
    rw [hdata, splitOnChar_append _ (pad2_no_colon h60),
      splitOnChar_of_not_mem (pad2_no_colon hm)]
    simp [string_mk_data]
  unfold buildCron
  rw [if_neg (by simp [hne])]
  rw [hsplit]
  simp only [List.getD_cons_zero, List.getD_cons_succ]
  rw [jsParseInt_pad2 hm, jsParseInt_pad2 h60]
  rfl

theorem cron_fields {h m : Nat} (hh : h < 24) (hm : m < 60) {days : List String}
    (hmem : ∀ d ∈ days, d ∈ weekdayValues) :
    jsSplit ' ' (Nat.repr m ++ " " ++ Nat.repr h ++ " * * " ++ jsJoin ',' (jsSortStrs days)) =
      [Nat.repr m, Nat.repr h, "*", "*", jsJoin ',' (jsSortStrs days)] := by
  have h60 : h < 60 := lt_trans hh (by norm_num)
  have hmemS : ∀ d ∈ jsSortStrs days, d ∈ weekdayValues := fun d hd =>
    hmem d ((jsSortStrs_perm days).subset hd)
  have hJspace : ' ' ∉ (jsJoin ',' (jsSortStrs days)).data :=
    jsJoin_not_mem (by decide) (fun l hl => weekday_no_space (hmemS l hl))
  have hdata : (Nat.repr m ++ " " ++ Nat.repr h ++ " * * " ++ jsJoin ',' (jsSortStrs days)).data =
      (Nat.repr m).data ++ ' ' ::
        ((Nat.repr h).data ++ ' ' ::
          ('*' :: ' ' :: '*' :: ' ' :: (jsJoin ',' (jsSortStrs days)).data)) := by
    rw [string_data_append, string_data_append, string_data_append, string_data_append]
    rw [show (" " : String).data = [' '] from rfl,
      show (" * * " : String).data = [' ', '*', ' ', '*', ' '] from rfl]
    simp [List.append_assoc]
  unfold jsSplit
  rw [hdata, splitOnChar_append _ (repr_no_space hm), splitOnChar_append _ (repr_no_space h60)]
  rw [show ('*' :: ' ' :: '*' :: ' ' :: (jsJoin ',' (jsSortStrs days)).data) =
        ['*'] ++ ' ' :: ('*' :: ' ' :: (jsJoin ',' (jsSortStrs days)).data) from rfl]
  rw [splitOnChar_append _ (by decide)]
  rw [show ('*' :: ' ' :: (jsJoin ',' (jsSortStrs days)).data) =
        ['*'] ++ ' ' :: (jsJoin ',' (jsSortStrs days)).data from rfl]
  rw [splitOnChar_append _ (by decide), splitOnChar_of_not_mem hJspace]
  simp [string_mk_data]

/-! ### Claim theorems -/

/-- Claim C2: for every schedule-editor state, `buildCron` returns `null`
exactly when the enabled flag is false or the weekday list is empty;
consequently every non-null cron string it produces comes from a state
with at least one weekday selected (an empty weekday set is normalized to
`null`, i.e. disabled). -/
theorem claim_C2_buildCron_null_iff_disabled (time : String) (days : List String)
    (enabled : Bool) :
    (buildCron time days enabled = none ↔ (enabled = false ∨ days = [])) ∧
    (∀ s, buildCron time days enabled = some s → days ≠ []) := by
  constructor
  · unfold buildCron
    by_cases hc : enabled = false ∨ days = []
    · rw [if_pos hc]
      exact iff_of_true rfl hc
    · rw [if_neg hc]
      exact iff_of_false (by simp) hc
  · intro s hs hdays
    unfold buildCron at hs
    rw [if_pos (Or.inr hdays)] at hs
    exact Option.noConfusion hs

/-- Witness for C2: a disabled editor state yields a `null` schedule. -/
theorem claim_C2_witness : buildCron "22:00" ["1"] false = none :=
  (claim_C2_buildCron_null_iff_disabled "22:00" ["1"] false).1.mpr (Or.inl rfl)

/-- Claim C4: a `null`/absent or empty cron string, and any string that
does not split into exactly five space-separated fields, parses to the
disabled editor state (enabled false, empty weekday list, default time
22:00); any string with exactly five fields parses with enabled true. -/
theorem claim_C4_parseCron_disabled_default :
    parseCron none = { time := "22:00", days := [], enabled := false } ∧
    parseCron (some "") = { time := "22:00", days := [], enabled := false } ∧
    (∀ s : String, (jsSplit ' ' s).length ≠ 5 →
      parseCron (some s) = { time := "22:00", days := [], enabled := false }) ∧
    (∀ s : String, (jsSplit ' ' s).length = 5 → (parseCron (some s)).enabled = true) := by
  refine ⟨rfl, rfl, ?_, ?_⟩
  · intro s hlen
    simp only [parseCron]
    rw [if_pos (Or.inr hlen)]
  · intro s hlen
    have hs : s ≠ "" := by
      intro h0
      rw [h0] at hlen
      exact absurd hlen (by decide)
    simp only [parseCron]
    rw [if_neg (fun hor : s = "" ∨ (jsSplit ' ' s).length ≠ 5 =>
      hor.elim hs (fun hne => hne hlen))]

/-- Witness for C4: a malformed three-field string parses as disabled,
and a five-field string parses as enabled. -/
theorem claim_C4_witness :
    parseCron (some "0 22 *") = { time := "22:00", days := [], enabled := false } ∧
    (parseCron (some "0 22 * * 1")).enabled = true :=
  ⟨claim_C4_parseCron_disabled_default.2.2.1 "0 22 *" (by decide),
   claim_C4_parseCron_disabled_default.2.2.2 "0 22 * * 1" (by decide)⟩

/-- Claim C3: for every enabled schedule with a well-formed zero-padded
`HH:MM` time and a non-empty list of editor weekday values, `buildCron`
produces a cron string with five space-separated fields: the fixed
minute, the fixed hour, wildcard `*` day-of-month and month, and a
comma-joined list of weekday digits in 0–6, with 0 denoting Sunday as in
the `daysOfWeek` table of the editor. -/
theorem claim_C3_buildCron_fields {h m : Nat} (hh : h < 24) (hm : m < 60)
    (days : List String) (hne : days ≠ []) (hmem : ∀ d ∈ days, d ∈ weekdayValues) :
    ∃ s, buildCron (pad2 h ++ ":" ++ pad2 m) days true = some s ∧
      jsSplit ' ' s = [Nat.repr m, Nat.repr h, "*", "*", jsJoin ',' (jsSortStrs days)] ∧
      jsSplit ',' (jsJoin ',' (jsSortStrs days)) = jsSortStrs days ∧
      jsSortStrs days ≠ [] ∧
      (∀ d ∈ jsSortStrs days, d ∈ ["0", "1", "2", "3", "4", "5", "6"]) ∧
      ("Sun", "0") ∈ daysOfWeek := by
  have hmemS : ∀ d ∈ jsSortStrs days, d ∈ weekdayValues := fun d hd =>
    hmem d ((jsSortStrs_perm days).subset hd)
  have hsne : jsSortStrs days ≠ [] := by
    intro h0
    have hperm := jsSortStrs_perm days
    rw [h0] at hperm
    exact hne hperm.symm.eq_nil
  exact ⟨_, buildCron_eq hh hm days hne, cron_fields hh hm hmem,
    jsSplit_jsJoin hsne (fun l hl => weekday_no_comma (hmemS l hl)), hsne,
    fun d hd => weekday_digit (hmemS d hd), by decide⟩

/-- Witness for C3 at 22:00 on Monday. -/
theorem claim_C3_witness :
    ∃ s, buildCron (pad2 22 ++ ":" ++ pad2 0) ["1"] true = some s ∧
      jsSplit ' ' s = [Nat.repr 0, Nat.repr 22, "*", "*", jsJoin ',' (jsSortStrs ["1"])] ∧
      jsSplit ',' (jsJoin ',' (jsSortStrs ["1"])) = jsSortStrs ["1"] ∧
      jsSortStrs ["1"] ≠ [] ∧
      (∀ d ∈ jsSortStrs ["1"], d ∈ ["0", "1", "2", "3", "4", "5", "6"]) ∧
      ("Sun", "0") ∈ daysOfWeek :=
  claim_C3_buildCron_fields (by norm_num) (by norm_num) ["1"] (by simp) (by decide)

/-- Claim C9: round trip of the cron helpers — for every zero-padded
`HH:MM` time and non-empty duplicate-free list of editor weekday values,
`parseCron (buildCron time days true)` returns enabled true, the
identical time string, and the weekday list sorted ascending (a sorted
permutation of the input). -/
theorem claim_C9_parse_build_roundTrip {h m : Nat} (hh : h < 24) (hm : m < 60)
    (days : List String) (hne : days ≠ []) (_hnd : days.Nodup)
    (hmem : ∀ d ∈ days, d ∈ weekdayValues) :
    parseCron (buildCron (pad2 h ++ ":" ++ pad2 m) days true) =
      { time := pad2 h ++ ":" ++ pad2 m, days := jsSortStrs days, enabled := true } ∧
    (jsSortStrs days).Perm days ∧ (jsSortStrs days).Sorted (· ≤ ·) := by
  refine ⟨?_, jsSortStrs_perm days, jsSortStrs_sorted days⟩
  rw [buildCron_eq hh hm days hne]
  have hfields := cron_fields hh hm hmem
  have hs0 : Nat.repr m ++ " " ++ Nat.repr h ++ " * * " ++ jsJoin ',' (jsSortStrs days) ≠ "" := by
    intro h0
    rw [h0] at hfields
    have hlen := congrArg List.length hfields
    simp [jsSplit, splitOnChar] at hlen
  have hmemS : ∀ d ∈ jsSortStrs days, d ∈ weekdayValues := fun d hd =>
    hmem d ((jsSortStrs_perm days).subset hd)
  have hsne : jsSortStrs days ≠ [] := by
    intro h0
    have hperm := jsSortStrs_perm days
    rw [h0] at hperm
    exact hne hperm.symm.eq_nil
  have hdays : jsSplit ',' (jsJoin ',' (jsSortStrs days)) = jsSortStrs days :=
    jsSplit_jsJoin hsne (fun l hl => weekday_no_comma (hmemS l hl))
  simp only [parseCron]
  rw [if_neg (fun hor : _ ∨ _ => hor.elim hs0 (fun hne5 => hne5 (by rw [hfields]; rfl)))]
  simp only [hfields, List.getD_cons_zero, List.getD_cons_succ]
  rw [hdays]
  rfl

/-- Witness for C9 at 22:00 on Monday and Wednesday. -/
theorem claim_C9_witness :
    parseCron (buildCron (pad2 22 ++ ":" ++ pad2 0) ["3", "1"] true) =
      { time := pad2 22 ++ ":" ++ pad2 0, days := jsSortStrs ["3", "1"], enabled := true } ∧
    (jsSortStrs ["3", "1"]).Perm ["3", "1"] ∧ (jsSortStrs ["3", "1"]).Sorted (· ≤ ·) :=
  claim_C9_parse_build_roundTrip (by norm_num) (by norm_num) ["3", "1"]
    (by simp) (by decide) (by decide)

theorem deliverMessages_closed {st : RunLogState} (h : st.closed = true)
    (msgs : List String) : deliverMessages st msgs = st := by
  cases msgs <;> simp [deliverMessages, h]

theorem takeWhile_ne_of_not_mem {x : String} {l : List String} (h : x ∉ l) :
    l.takeWhile (fun d => d != x) = l := by
  induction l with
  | nil => rfl
  | cons d ds ih =>
    have hd : (d != x) = true := by
      simp only [bne_iff_ne, ne_eq]
      intro h0
      exact h (h0 ▸ List.mem_cons_self d ds)
    have hds : x ∉ ds := fun hm => h (List.mem_cons_of_mem d hm)
    simp [List.takeWhile, hd, ih hds]

theorem deliverMessages_open (logs : List String) (msgs : List String) :
    deliverMessages { logs := logs, isComplete := false, closed := false } msgs =
      if STREAM_END ∈ msgs then
        { logs := logs ++ msgs.takeWhile (fun d => d != STREAM_END),
          isComplete := true, closed := true }
      else
        { logs := logs ++ msgs, isComplete := false, closed := false } := by
  induction msgs generalizing logs with
  | nil => simp [deliverMessages]
  | cons d ds ih =>
    by_cases hd : d = STREAM_END
    · subst hd
      have h1 : deliverMessages { logs := logs, isComplete := false, closed := false }
          (STREAM_END :: ds) =
          deliverMessages { logs := logs, isComplete := true, closed := true } ds := by
        simp [deliverMessages, onStreamMessage]
      rw [h1, deliverMessages_closed rfl, if_pos (List.mem_cons_self _ _)]
      have htw : List.takeWhile (fun d => d != STREAM_END) (STREAM_END :: ds) = [] := by
        simp [List.takeWhile]
      rw [htw]
      simp
    · have hbne : (d != STREAM_END) = true := by
        simpa using hd
      have h1 : deliverMessages { logs := logs, isComplete := false, closed := false }
          (d :: ds) =
          deliverMessages { logs := logs ++ [d], isComplete := false, closed := false } ds := by
        simp [deliverMessages, onStreamMessage, hd]
      rw [h1, ih]
      have hmem : STREAM_END ∈ d :: ds ↔ STREAM_END ∈ ds := by
        constructor
        · intro hx
          rcases List.mem_cons.mp hx with h2 | h2
          · exact absurd h2.symm hd
          · exact h2
        · exact List.mem_cons_of_mem d
      have htw : List.takeWhile (fun x => x != STREAM_END) (d :: ds) =
          d :: List.takeWhile (fun x => x != STREAM_END) ds := by
        simp [List.takeWhile, hbne]
      by_cases hin : STREAM_END ∈ ds
      · rw [if_pos hin, if_pos (hmem.mpr hin), htw]
        simp
      · rw [if_neg hin, if_neg (fun hx => hin (hmem.mp hx))]
        simp

/-- Claim C5: the run-log modal appends every streamed message other than
the `[STREAM_END]` sentinel to the displayed log in arrival order; on the
sentinel it marks the run complete and closes the stream, so the sentinel
is never displayed and no line is appended after it. -/
theorem claim_C5_stream_handler (msgs : List String) :
    (runStream msgs).logs = msgs.takeWhile (fun d => d != STREAM_END) ∧
    ((runStream msgs).isComplete = true ↔ STREAM_END ∈ msgs) ∧
    STREAM_END ∉ (runStream msgs).logs := by
  have hrun : runStream msgs =
      deliverMessages { logs := [], isComplete := false, closed := false } msgs := rfl
  rw [hrun, deliverMessages_open]
  by_cases hin : STREAM_END ∈ msgs
  · rw [if_pos hin]
    refine ⟨by simp, by simp [hin], ?_⟩
    intro hmem
    simp only [List.nil_append] at hmem
    have := List.mem_takeWhile_imp hmem
    simp at this
  · rw [if_neg hin]
    exact ⟨by simp [takeWhile_ne_of_not_mem hin], by simp [hin], by simpa using hin⟩

/-- Claim C6: a `POST /api/run` response is either a `{run_id}` payload
or an `{error}` payload; the client opens the live run-log view exactly
when the resolved payload carries a `run_id`, and every other outcome (an
`{error}` payload or a rejected request) surfaces an error message and
opens no log view. -/
theorem claim_C6_run_response_dispatch (result : Except String RunResponse)
    (hspec : ∀ data, result = Except.ok data → SpecRunResponse data) :
    ((∃ id, handleRunFlow result = RunUiOutcome.openLogView id) ↔
      (∃ data id, result = Except.ok data ∧ data.run_id = some id)) ∧
    (∀ e, result = Except.error e →
      ∃ msg, handleRunFlow result = RunUiOutcome.showError msg) ∧
    (∀ data, result = Except.ok data → data.run_id = none →
      ∃ msg, handleRunFlow result = RunUiOutcome.showError msg) := by
  refine ⟨?_, ?_, ?_⟩
  · cases result with
    | error e =>
      constructor
      · rintro ⟨id, hid⟩
        simp [handleRunFlow] at hid
      · rintro ⟨data, id, hd, -⟩
        cases hd
    | ok data =>
      rcases hspec data rfl with ⟨id, hpos, hrid, -⟩ | ⟨hnone, msg, herr⟩
      · have hopen : handleRunFlow (Except.ok data) = RunUiOutcome.openLogView id := by
          simp [handleRunFlow, handleRun, jsTruthyNum, hrid, hpos.ne']
        exact ⟨fun _ => ⟨data, id, rfl, hrid⟩, fun _ => ⟨id, hopen⟩⟩
      · constructor
        · rintro ⟨id, hid⟩
          simp [handleRunFlow, handleRun, jsTruthyNum, hnone] at hid
        · rintro ⟨data', id, hd', hrid'⟩
          cases hd'
          rw [hnone] at hrid'
          cases hrid'
  · intro e he
    subst he
    exact ⟨"Request failed: " ++ e, rfl⟩
  · intro data hd hn
    subst hd
    refine ⟨jsOrStr data.error "Failed to start run.", ?_⟩
    simp [handleRunFlow, handleRun, jsTruthyNum, hn]

/-- Witness for C6: a `{run_id: 7}` payload opens the log view. -/
theorem claim_C6_witness :
    ∃ id, handleRunFlow (Except.ok { run_id := some 7, error := none }) =
      RunUiOutcome.openLogView id :=
  (claim_C6_run_response_dispatch (Except.ok { run_id := some 7, error := none })
      (fun data hd => by
        cases hd
        exact Or.inl ⟨7, by norm_num, rfl, rfl⟩)).1.mpr
    ⟨{ run_id := some 7, error := none }, 7, rfl, rfl⟩

/-- Claim C7: the cleanup request body is exactly the path list returned
by the empty-dirs scan, unchanged and in the same order, and the reported
snackbar has severity `warning` exactly when the `errors` list of the response
is non-empty. -/
theorem claim_C7_cleanup_exact_paths (scanResult : List String) (resp : CleanupResponse) :
    (handleConfirmCleanup (handleOpenCleanup scanResult) resp).1 = scanResult ∧
    ((handleConfirmCleanup (handleOpenCleanup scanResult) resp).2.severity = "warning" ↔
      ∃ es, resp.errors = some es ∧ es ≠ []) := by
  obtain ⟨deleted, errors⟩ := resp
  refine ⟨rfl, ?_⟩
  cases errors with
  | none => simp [handleConfirmCleanup]
  | some es =>
    cases es with
    | nil => simp [handleConfirmCleanup]
    | cons e es' => simp [handleConfirmCleanup]

/-- Witness for C7: the exact scanned paths are sent back. -/
theorem claim_C7_witness :
    (handleConfirmCleanup (handleOpenCleanup ["/mnt/a/b", "/mnt/a"])
      { deleted := 2, errors := none }).1 = ["/mnt/a/b", "/mnt/a"] :=
  (claim_C7_cleanup_exact_paths ["/mnt/a/b", "/mnt/a"] { deleted := 2, errors := none }).1

theorem handleResponse_not_ok {r : ApiResponse} (hok : r.ok = false) :
    handleResponse r = Except.error
      (jsOrStr (r.jsonBody.getD { error := some "An unknown network error occurred" }).error
        "Request failed") := by
  unfold handleResponse
  rw [if_pos hok]

theorem handleResponse_ok {r : ApiResponse} (hok : r.ok = true) {body : ErrorPayload}
    (hb : r.jsonBody = some body) : handleResponse r = Except.ok body := by
  unfold handleResponse
  rw [if_neg (by simp [hok]), hb]

/-- Claim C8: the shared response handler throws on every non-ok response
— with the structured `error` message when present, a fixed message when
the body is not JSON, and a generic message when the `error` field is
missing or empty — and resolves to the parsed JSON body on every ok
response; no failed response yields a success value. -/
theorem claim_C8_handleResponse (r : ApiResponse) :
    (r.ok = false →
      (∃ msg, handleResponse r = Except.error msg ∧ msg ≠ "") ∧
      (∀ body m, r.jsonBody = some body → body.error = some m → m ≠ "" →
        handleResponse r = Except.error m) ∧
      (r.jsonBody = none →
        handleResponse r = Except.error "An unknown network error occurred") ∧
      (∀ body, r.jsonBody = some body → body.error = none →
        handleResponse r = Except.error "Request failed") ∧
      (∀ body, handleResponse r ≠ Except.ok body)) ∧
    (r.ok = true → ∀ body, r.jsonBody = some body → handleResponse r = Except.ok body) := by
  constructor
  · intro hok
    have h1 := handleResponse_not_ok hok
    refine ⟨?_, ?_, ?_, ?_, ?_⟩
    · rcases hjb : r.jsonBody with - | perr
      · rw [hjb] at h1
        exact ⟨"An unknown network error occurred", by simpa [jsOrStr] using h1, by decide⟩
      · rw [hjb] at h1
        obtain ⟨pe⟩ := perr
        cases pe with
        | none => exact ⟨"Request failed", by simpa [jsOrStr] using h1, by decide⟩
        | some m =>
          by_cases hm : m = ""
          · subst hm
            exact ⟨"Request failed", by simpa [jsOrStr] using h1, by decide⟩
          · exact ⟨m, by simpa [jsOrStr, hm] using h1, hm⟩
    · intro body m hb hm hmne
      rw [hb] at h1
      simpa [jsOrStr, hm, hmne] using h1
    · intro hb
      rw [hb] at h1
      simpa [jsOrStr] using h1
    · intro body hb he
      rw [hb] at h1
      simpa [jsOrStr, he] using h1
    · intro body
      rw [h1]
      simp
  · intro hok body hb
    exact handleResponse_ok hok hb

/-- Witness for C8: a non-ok response with a structured error message
throws exactly that message. -/
theorem claim_C8_witness :
    handleResponse { ok := false, jsonBody := some { error := some "Disk not found" } } =
      Except.error "Disk not found" :=
  ((claim_C8_handleResponse
      { ok := false, jsonBody := some { error := some "Disk not found" } }).1 rfl).2.1
    { error := some "Disk not found" } "Disk not found" rfl rfl (by decide)

/-- Witness for C5: one log line, the sentinel, then a late message —
only the line before the sentinel is displayed and the run is complete. -/
theorem claim_C5_witness :
    (runStream ["moved a.txt", STREAM_END, "late line"]).logs = ["moved a.txt"] ∧
    (runStream ["moved a.txt", STREAM_END, "late line"]).isComplete = true := by
  refine ⟨?_, (claim_C5_stream_handler ["moved a.txt", STREAM_END, "late line"]).2.1.mpr
    (by decide)⟩
  rw [(claim_C5_stream_handler ["moved a.txt", STREAM_END, "late line"]).1]
  decide

/-- Claim C1: a run-start request while the Global Run Slot is occupied
fails with a ConflictError, creates no new Run record, and leaves the
slot and the run records unchanged; the whole acquisition attempt is a
single atomic, non-blocking step that returns immediately. -/
theorem claim_C1_slot_conflict (st : OrchestratorState) (disk : String) (activeId : Nat)
    (h : st.slot = some activeId) :
    (startRun st disk).1 = st ∧
    (startRun st disk).2 = StartRunResult.conflict "a run is already active" ∧
    (startRun st disk).1.runs = st.runs ∧
    (startRun st disk).1.slot = some activeId := by
  obtain ⟨slot, runs, nextId⟩ := st
  simp only at h
  subst h
  exact ⟨rfl, rfl, rfl, rfl⟩

/-- Witness for C1: a request against an occupied slot is rejected with
the existing records untouched. -/
theorem claim_C1_witness :
    (startRun { slot := some 1,
                runs := [{ id := 1, disk_name := "media", status := RunStatus.running }],
                nextId := 2 } "media").2 =
      StartRunResult.conflict "a run is already active" :=
  (claim_C1_slot_conflict
    { slot := some 1,
      runs := [{ id := 1, disk_name := "media", status := RunStatus.running }],
      nextId := 2 } "media" 1 rfl).2.1

theorem fileCmpA_eq_fileCmpB (lc : String → String → Int) (a b : FileEntry) :
    fileCmpA lc a b = fileCmpB lc a b := by
  obtain ⟨na, da⟩ := a
  obtain ⟨nb, db⟩ := b
  cases da <;> cases db <;> simp [fileCmpA, fileCmpB, boolToInt]

theorem fileCmpA_le_iff (lc : String → String → Int) (a b : FileEntry) :
    fileCmpA lc a b ≤ 0 ↔
      ((a.is_dir = true ∧ b.is_dir = false) ∨
        (a.is_dir = b.is_dir ∧ lc a.name b.name ≤ 0)) := by
  obtain ⟨na, da⟩ := a
  obtain ⟨nb, db⟩ := b
  cases da <;> cases db <;> simp [fileCmpA, boolToInt]

theorem fileCmpA_total (lc : String → String → Int)
    (hTot : ∀ a b, lc a b ≤ 0 ∨ lc b a ≤ 0) (a b : FileEntry) :
    fileCmpA lc a b ≤ 0 ∨ fileCmpA lc b a ≤ 0 := by
  obtain ⟨na, da⟩ := a
  obtain ⟨nb, db⟩ := b
  cases da <;> cases db <;> simp [fileCmpA_le_iff] <;> exact hTot na nb

theorem fileCmpA_trans (lc : String → String → Int)
    (hTrans : ∀ a b c, lc a b ≤ 0 → lc b c ≤ 0 → lc a c ≤ 0) (a b c : FileEntry)
    (hab : fileCmpA lc a b ≤ 0) (hbc : fileCmpA lc b c ≤ 0) : fileCmpA lc a c ≤ 0 := by
  rw [fileCmpA_le_iff] at hab hbc ⊢
  rcases hab with ⟨ha, hb⟩ | ⟨hab', hlab⟩
  · rcases hbc with ⟨hb', -⟩ | ⟨hbc', -⟩
    · exact absurd (hb.symm.trans hb') (by decide)
    · exact Or.inl ⟨ha, hbc' ▸ hb⟩
  · rcases hbc with ⟨hb', hc⟩ | ⟨hbc', hlbc⟩
    · exact Or.inl ⟨hab'.trans hb', hc⟩
    · exact Or.inr ⟨hab'.trans hbc', hTrans _ _ _ hlab hlbc⟩

/-- Claim C10: both file-browser components sort the `GET /api/files`
entries with equivalent comparators; the displayed list is a permutation
of the fetched entries (nothing dropped or duplicated) in which every
directory precedes every non-directory and entries within the same group
are ordered by the locale comparison of their names. -/
theorem claim_C10_file_sort (lc : String → String → Int)
    (hTot : ∀ a b, lc a b ≤ 0 ∨ lc b a ≤ 0)
    (hTrans : ∀ a b c, lc a b ≤ 0 → lc b c ≤ 0 → lc a c ≤ 0)
    (files : List FileEntry) :
    (∀ a b, fileCmpA lc a b = fileCmpB lc a b) ∧
    jsSortFiles (fileCmpA lc) files = jsSortFiles (fileCmpB lc) files ∧
    (jsSortFiles (fileCmpA lc) files).Perm files ∧
    (jsSortFiles (fileCmpA lc) files).Pairwise (fun a b =>
      (a.is_dir = false → b.is_dir = false) ∧
      (a.is_dir = b.is_dir → lc a.name b.name ≤ 0)) := by
  have heq : fileCmpA lc = fileCmpB lc := by
    funext a b
    exact fileCmpA_eq_fileCmpB lc a b
  refine ⟨fileCmpA_eq_fileCmpB lc, by rw [heq], List.perm_insertionSort _ files, ?_⟩
  haveI : IsTotal FileEntry (fun a b => fileCmpA lc a b ≤ 0) :=
    ⟨fileCmpA_total lc hTot⟩
  haveI : IsTrans FileEntry (fun a b => fileCmpA lc a b ≤ 0) :=
    ⟨fileCmpA_trans lc hTrans⟩
  have hsorted : (jsSortFiles (fileCmpA lc) files).Pairwise
      (fun a b => fileCmpA lc a b ≤ 0) :=
    List.sorted_insertionSort _ files
  refine hsorted.imp ?_
  intro a b hab
  rw [fileCmpA_le_iff] at hab
  constructor
  · intro haf
    rcases hab with ⟨ha, -⟩ | ⟨hab', -⟩
    · exact absurd (haf.symm.trans ha) (by decide)
    · exact hab' ▸ haf
  · intro hgrp
    rcases hab with ⟨ha, hb⟩ | ⟨-, hl⟩
    · exact absurd ((ha.symm.trans hgrp).trans hb) (by decide)
    · exact hl

theorem lcStd_le_iff (a b : String) : lcStd a b ≤ 0 ↔ a ≤ b := by
  unfold lcStd
  rcases lt_trichotomy a b with h | h | h
  · rw [if_pos h]
    exact iff_of_true (by decide) (le_of_lt h)
  · subst h
    rw [if_neg (lt_irrefl a), if_neg (lt_irrefl a)]
    exact iff_of_true (by decide) (le_refl a)
  · rw [if_neg (asymm h), if_pos h]
    exact iff_of_false (by decide) (not_le.mpr h)

theorem lcStd_total (a b : String) : lcStd a b ≤ 0 ∨ lcStd b a ≤ 0 := by
  rcases le_total a b with h | h
  · exact Or.inl ((lcStd_le_iff a b).mpr h)
  · exact Or.inr ((lcStd_le_iff b a).mpr h)

theorem lcStd_trans (a b c : String) (hab : lcStd a b ≤ 0) (hbc : lcStd b c ≤ 0) :
    lcStd a c ≤ 0 :=
  (lcStd_le_iff a c).mpr (le_trans ((lcStd_le_iff a b).mp hab) ((lcStd_le_iff b c).mp hbc))

/-- Witness for C10: sorting a file and a directory under the code-point
locale comparison yields a permutation of the input. -/
theorem claim_C10_witness :
    (jsSortFiles (fileCmpA lcStd)
        [{ name := "b.txt", is_dir := false }, { name := "a", is_dir := true }]).Perm
      [{ name := "b.txt", is_dir := false }, { name := "a", is_dir := true }] :=
  (claim_C10_file_sort lcStd lcStd_total lcStd_trans
    [{ name := "b.txt", is_dir := false }, { name := "a", is_dir := true }]).2.2.1

end FileOrganizer
